import Mathlib

/-!
Shallow embedding of the wishlisht repository: the `items` table of
`schema.sql`, the four JSON API handlers of the Hono worker in
`src/index.tsx`, and the client-side logic of the React `App` component
(drag-and-drop reordering, category filtering, URL normalization and the
submit payload). JSON bodies are records of optional fields: `none` models
an absent (JS `undefined`) field, `some v` a present value. D1 rejects a
JS `undefined` value passed to `.bind()` with D1_TYPE_ERROR before the
statement runs, so an INSERT binding an absent field fails with no row.
Floating point is out of scope: the `price` column is modelled with `Int`
(no claim computes with price values). JSON `null` field values (distinct
from absent) are not modelled; no claim involves them.
-/

namespace Wishlisht

/-- A row of the `items` table (`schema.sql`). `name` is NOT NULL; `price`,
`url` and `image_key` are nullable. `category` and `priority` have non-null
defaults and every write path of the program writes non-null values to
them, so they are modelled as non-optional. -/
structure Item where
  id : Nat
  name : String
  price : Option Int
  url : Option String
  image_key : Option String
  category : String
  priority : Int
  created_at : Int
deriving DecidableEq, Repr

/-- The database: the `items` table plus the AUTOINCREMENT counter that
assigns `last_row_id`. -/
structure Store where
  rows : List Item
  nextId : Nat
deriving DecidableEq, Repr

/-- A parsed JSON request body for POST and PUT `/api/items`:
`const \x7b name, price, url, image_key, category, priority \x7d = body`.
`none` is an absent field (JS `undefined`). -/
structure Body where
  name : Option String
  price : Option Int
  url : Option String
  image_key : Option String
  category : Option String
  priority : Option Int
deriving DecidableEq, Repr

/-- JS `x || d` for a possibly-undefined string: `undefined` and the empty
string are falsy (used for `category || 'uncategorized'`). -/
def jsOrString : Option String → String → String
  | none, d => d
  | some s, d => if s = "" then d else s

/-- JS `x || d` for a possibly-undefined number: `undefined` and `0` are
falsy (used for `priority || 0`). -/
def jsOrInt : Option Int → Int → Int
  | none, d => d
  | some n, d => if n = 0 then d else n

/-- Database-level failures surfaced by `.bind(...).run()`. D1 rejects a
JS `undefined` bind value with D1_TYPE_ERROR (Type undefined not
supported); the statement never runs and the request fails as a server
error. -/
inductive DbError
  | d1TypeError
deriving DecidableEq, Repr

/-- POST `/api/items`: the handler performs no validation; it binds
`name`, `price`, `url` and `image_key` directly and applies
`category || 'uncategorized'` and `priority || 0` (so those two are never
undefined). D1 checks the bind values in order: the first absent one of
the four directly bound fields raises D1_TYPE_ERROR and no row is
created. Otherwise the row is inserted — `created_at` takes the column
default `unixepoch()`, passed here as `now` — and `last_row_id` is
returned. -/
def insertItem (s : Store) (b : Body) (now : Int) : Except DbError (Nat × Store) :=
  match b.name with
  | none => .error .d1TypeError
  | some nm =>
    match b.price with
    | none => .error .d1TypeError
    | some pr =>
      match b.url with
      | none => .error .d1TypeError
      | some u =>
        match b.image_key with
        | none => .error .d1TypeError
        | some ik =>
          let row : Item :=
            { id := s.nextId
              name := nm
              price := some pr
              url := some u
              image_key := some ik
              category := jsOrString b.category "uncategorized"
              priority := jsOrInt b.priority 0
              created_at := now }
          .ok (s.nextId, { rows := s.rows ++ [row], nextId := s.nextId + 1 })

/-- The dynamic UPDATE applied to one row: each `if (field !== undefined)`
branch of the PUT handler contributes one column assignment; absent fields
leave the column untouched. -/
def applyUpdate (b : Body) (r : Item) : Item :=
  { r with
    name := b.name.getD r.name
    price := match b.price with | none => r.price | some v => some v
    url := match b.url with | none => r.url | some v => some v
    image_key := match b.image_key with | none => r.image_key | some v => some v
    category := b.category.getD r.category
    priority := b.priority.getD r.priority }

/-- `updates.length === 0` in the PUT handler: every destructured field is
absent. -/
def emptyBody (b : Body) : Bool :=
  b.name.isNone && b.price.isNone && b.url.isNone && b.image_key.isNone &&
    b.category.isNone && b.priority.isNone

/-- PUT `/api/items/:id`: if no field is present the handler returns
`success: true` without touching the database; otherwise it runs
`UPDATE items SET ... WHERE id = ?` (affecting every row whose id matches,
zero rows when the id is absent) and returns `success: true`. The returned
Bool is the `success` flag. -/
def updateEndpoint (s : Store) (i : Nat) (b : Body) : Store × Bool :=
  if emptyBody b then (s, true)
  else ({ s with rows := s.rows.map (fun r => if r.id = i then applyUpdate b r else r) }, true)

/-- The comparator of GET `/api/items`:
`ORDER BY priority ASC, created_at DESC`. -/
def itemOrd (a b : Item) : Prop :=
  a.priority < b.priority ∨ (a.priority = b.priority ∧ b.created_at ≤ a.created_at)

instance : DecidableRel itemOrd := fun a b => by
  unfold itemOrd; infer_instance

instance : IsTotal Item itemOrd := by
  constructor
  intro a b
  unfold itemOrd
  rcases lt_trichotomy a.priority b.priority with h | h | h
  · exact Or.inl (Or.inl h)
  · rcases le_total b.created_at a.created_at with h2 | h2
    · exact Or.inl (Or.inr ⟨h, h2⟩)
    · exact Or.inr (Or.inr ⟨h.symm, h2⟩)
  · exact Or.inr (Or.inl h)

instance : IsTrans Item itemOrd := by
  constructor
  intro a b c hab hbc
  unfold itemOrd at *
  rcases hab with h1 | ⟨h1, h1c⟩ <;> rcases hbc with h2 | ⟨h2, h2c⟩
  · exact Or.inl (h1.trans h2)
  · exact Or.inl (h2 ▸ h1)
  · exact Or.inl (h1 ▸ h2)
  · exact Or.inr ⟨h1.trans h2, h2c.trans h1c⟩

/-- GET `/api/items`: `SELECT * FROM items ORDER BY priority ASC,
created_at DESC`. Modelled as a sort of the table by `itemOrd`. -/
def listAll (s : Store) : List Item :=
  s.rows.insertionSort itemOrd

/-- `row.find? by id`: the row a `WHERE id = ?` lookup would see. -/
def rowById (s : Store) (i : Nat) : Option Item :=
  s.rows.find? (fun r => r.id == i)

/-- dnd-kit `arrayMove(array, from, to)` for in-range indices: remove the
element at `i`, reinsert it at `j`. (The handlers only invoke it with both
indices found in the list.) -/
def arrayMove (l : List Item) (i j : Nat) : List Item :=
  match l[i]? with
  | none => l.eraseIdx i
  | some a => (l.eraseIdx i).insertIdx j a

/-- `handleDragEnd` (src/index.tsx): when the dragged id differs from the
id it was dropped onto, both positions are looked up in the FULL `items`
state (not in `filteredItems`) and the full list is rearranged with
`arrayMove`. The ids are those of rendered items, hence present in the
list; `findIdx` then agrees with JS `findIndex`. -/
def handleDragEnd (items : List Item) (activeId overId : Nat) : List Item :=
  if activeId ≠ overId then
    arrayMove items (items.findIdx (fun r => r.id == activeId))
      (items.findIdx (fun r => r.id == overId))
  else items

/-- The body `JSON.stringify(\x7b priority: index \x7d)` of one persistence
request issued by `handleDragEnd`. -/
def priorityBody (n : Int) : Body :=
  { name := none, price := none, url := none, image_key := none,
    category := none, priority := some n }

/-- The `newItems.forEach((item, index) => fetch(PUT, priority: index))`
loop: requests are issued in order for every item of `newItems`; each one
independently reaches the store (`ok k = true`) or fails in transit
(`ok k = false`). A failure neither stops the loop, nor is retried, nor
rolls anything back. -/
def persistLoop (s : Store) (l : List Item) (k : Nat) (ok : Nat → Bool) : Store :=
  match l with
  | [] => s
  | r :: rest =>
    let s1 := if ok k then (updateEndpoint s r.id (priorityBody (Int.ofNat k))).1 else s
    persistLoop s1 rest (k + 1) ok

/-- The whole persistence pass of `handleDragEnd` over the reordered
list. -/
def reorderPersist (s : Store) (newItems : List Item) (ok : Nat → Bool) : Store :=
  persistLoop s newItems 0 ok

/-- `filteredItems` (src/index.tsx): pure projection of the client list by
the active category; `All` shows everything. -/
def filteredItems (items : List Item) (activeCategory : String) : List Item :=
  if activeCategory = "All" then items
  else items.filter (fun r => r.category == activeCategory)

/-- Boolean test that `small` is an initial segment of `big`. -/
def listIsInit : List Char → List Char → Bool
  | [], _ => true
  | _ :: _, [] => false
  | a :: as, b :: bs => a == b && listIsInit as bs

/-- Character-wise lowercasing of a string. -/
def lowerStr (s : String) : String :=
  String.mk (s.data.map Char.toLower)

/-- The regex test of `handleSubmit`: `/^https?:\/\//i.test(s)` — a
case-insensitive check that the string starts with `http://` or
`https://`. -/
def testHttpScheme (s : String) : Bool :=
  listIsInit "http://".data (lowerStr s).data ||
    listIsInit "https://".data (lowerStr s).data

/-- JS `String.prototype.trim`: strip leading and trailing whitespace
(the ASCII whitespace characters; the wider JS Unicode whitespace set is
out of scope). -/
def jsTrim (s : String) : String :=
  String.mk (((s.data.dropWhile Char.isWhitespace).reverse.dropWhile Char.isWhitespace).reverse)

/-- URL normalization of `handleSubmit`: trim, then prepend `https://`
when the trimmed value is truthy (non-empty) and does not already match
the scheme regex. -/
def normalizeUrl (s : String) : String :=
  let u := jsTrim s
  if u ≠ "" ∧ testHttpScheme u = false then "https://" ++ u else u

/-- The form state relevant to the submit payload (`price` is the value
after `parseFloat`, modelled as already numeric). -/
structure SubmitForm where
  name : String
  price : Int
  url : String
  category : String
deriving DecidableEq, Repr

/-- The `payload` object built by `handleSubmit`: all five fields plus,
only when creating (no `editingItem`), `priority: items.length`; when
editing, the spread adds nothing, so `priority` is absent from the
payload. -/
def buildPayload (editing : Bool) (itemsLength : Nat) (f : SubmitForm) (imageKey : String) : Body :=
  { name := some f.name
    price := some f.price
    url := some (normalizeUrl f.url)
    image_key := some imageKey
    category := some f.category
    priority := if editing then none else some (Int.ofNat itemsLength) }

/-! Concrete fixtures: the three-item list of the reorder scenario of the
spec, and a four-item two-category store for the category-filter edge
case. -/

/-- Scenario item A: priority 0. -/
def itemA : Item :=
  { id := 1, name := "A", price := none, url := none, image_key := none,
    category := "Toys", priority := 0, created_at := 30 }

/-- Scenario item B: priority 1. -/
def itemB : Item :=
  { id := 2, name := "B", price := none, url := none, image_key := none,
    category := "Toys", priority := 1, created_at := 20 }

/-- Scenario item C: priority 2. -/
def itemC : Item :=
  { id := 3, name := "C", price := none, url := none, image_key := none,
    category := "Toys", priority := 2, created_at := 10 }

/-- The store holding exactly A, B, C. -/
def storeABC : Store := { rows := [itemA, itemB, itemC], nextId := 4 }

/-- Mixed-category fixture, a Toys item. -/
def toy1 : Item :=
  { id := 1, name := "toy1", price := none, url := none, image_key := none,
    category := "Toys", priority := 0, created_at := 0 }

/-- Mixed-category fixture, a Tech item between the two Toys items. -/
def tech2 : Item :=
  { id := 2, name := "tech2", price := none, url := none, image_key := none,
    category := "Tech", priority := 1, created_at := 0 }

/-- Mixed-category fixture, the second Toys item. -/
def toy3 : Item :=
  { id := 3, name := "toy3", price := none, url := none, image_key := none,
    category := "Toys", priority := 2, created_at := 0 }

/-- Mixed-category fixture, the last Tech item. -/
def tech4 : Item :=
  { id := 4, name := "tech4", price := none, url := none, image_key := none,
    category := "Tech", priority := 3, created_at := 0 }

/-- The four-item two-category store: Toys at priorities 0 and 2, Tech at
priorities 1 and 3. -/
def storeMixed : Store := { rows := [toy1, tech2, toy3, tech4], nextId := 5 }

/-! Helper lemmas about the update endpoint and the persistence loop. -/

theorem applyUpdate_id (b : Body) (r : Item) : (applyUpdate b r).id = r.id := rfl

theorem updateRow_id (b : Body) (i : Nat) (r : Item) :
    (if r.id = i then applyUpdate b r else r).id = r.id := by
  by_cases h : r.id = i <;> simp [h, applyUpdate_id]

theorem applyUpdate_of_empty (b : Body) (r : Item) (h : emptyBody b = true) :
    applyUpdate b r = r := by
  obtain ⟨n, p, u, k, c, pr⟩ := b
  simp only [emptyBody, Bool.and_eq_true, Option.isNone_iff_eq_none] at h
  obtain ⟨⟨⟨⟨⟨h1, h2⟩, h3⟩, h4⟩, h5⟩, h6⟩ := h
  subst h1; subst h2; subst h3; subst h4; subst h5; subst h6
  rfl

theorem find?_map_update (rows : List Item) (i x : Nat) (b : Body) :
    (rows.map (fun r => if r.id = i then applyUpdate b r else r)).find? (fun r => r.id == x) =
      (rows.find? (fun r => r.id == x)).map (fun r => if r.id = i then applyUpdate b r else r) := by
  induction rows with
  | nil => rfl
  | cons a t ih =>
    simp only [List.map_cons, List.find?_cons]
    rw [show ((if a.id = i then applyUpdate b a else a).id == x) = (a.id == x) by
      rw [updateRow_id]]
    cases h : (a.id == x) with
    | true => rfl
    | false => exact ih

theorem rowById_updateEndpoint (s : Store) (i x : Nat) (b : Body) :
    rowById (updateEndpoint s i b).1 x =
      (rowById s x).map (fun r => if r.id = i then applyUpdate b r else r) := by
  unfold updateEndpoint rowById
  by_cases he : emptyBody b
  · simp only [he, if_true]
    cases hf : s.rows.find? (fun r => r.id == x) with
    | none => rfl
    | some r =>
      by_cases hr : r.id = i <;> simp [hr, applyUpdate_of_empty b r he]
  · simp only [he, if_false, Bool.false_eq_true]
    exact find?_map_update s.rows i x b

theorem rowById_updateEndpoint_ne (s : Store) (i x : Nat) (b : Body) (h : x ≠ i) :
    rowById (updateEndpoint s i b).1 x = rowById s x := by
  rw [rowById_updateEndpoint]
  cases hf : rowById s x with
  | none => rfl
  | some r =>
    have hp := List.find?_some (show s.rows.find? (fun t => t.id == x) = some r from hf)
    have hrx : r.id = x := by simpa using hp
    simp [hrx, h]

theorem rowById_updateEndpoint_self (s : Store) (i : Nat) (b : Body) :
    rowById (updateEndpoint s i b).1 i = (rowById s i).map (fun r => applyUpdate b r) := by
  rw [rowById_updateEndpoint]
  cases hf : rowById s i with
  | none => rfl
  | some r =>
    have hp := List.find?_some (show s.rows.find? (fun t => t.id == i) = some r from hf)
    have hri : r.id = i := by simpa using hp
    simp [hri]

theorem applyUpdate_priorityBody (n : Int) (r : Item) :
    applyUpdate (priorityBody n) r = { r with priority := n } := by
  simp [applyUpdate, priorityBody]

theorem rowById_setPriority (s : Store) (x : Nat) (n : Int) :
    rowById (updateEndpoint s x (priorityBody n)).1 x =
      (rowById s x).map (fun r => { r with priority := n }) := by
  rw [rowById_updateEndpoint_self]
  cases hf : rowById s x with
  | none => rfl
  | some r => simp [applyUpdate_priorityBody]

theorem persistLoop_rowById_notMem (l : List Item) (s : Store) (k : Nat) (ok : Nat → Bool)
    (x : Nat) (hx : ∀ r ∈ l, r.id ≠ x) :
    rowById (persistLoop s l k ok) x = rowById s x := by
  induction l generalizing s k with
  | nil => rfl
  | cons a t ih =>
    have hax : a.id ≠ x := hx a (by simp)
    have ht : ∀ r ∈ t, r.id ≠ x := fun r hr => hx r (by simp [hr])
    simp only [persistLoop]
    rw [ih _ _ ht]
    by_cases h : ok k
    · simp [h, rowById_updateEndpoint_ne s a.id x _ (Ne.symm hax)]
    · simp [h]

theorem persistLoop_rowById_get (l : List Item) (s : Store) (k : Nat) (ok : Nat → Bool)
    (hnd : (l.map Item.id).Nodup) (j : Nat) (hj : j < l.length) :
    rowById (persistLoop s l k ok) (l.get ⟨j, hj⟩).id =
      if ok (k + j) then
        (rowById s (l.get ⟨j, hj⟩).id).map (fun r => { r with priority := Int.ofNat (k + j) })
      else rowById s (l.get ⟨j, hj⟩).id := by
  induction l generalizing s k j with
  | nil => exact absurd hj (by simp)
  | cons a t ih =>
    have hna : a.id ∉ t.map Item.id := by
      simp only [List.map_cons, List.nodup_cons] at hnd
      exact hnd.1
    have hndt : (t.map Item.id).Nodup := by
      simp only [List.map_cons, List.nodup_cons] at hnd
      exact hnd.2
    cases j with
    | zero =>
      simp only [persistLoop, List.get]
      have hframe : ∀ r ∈ t, r.id ≠ a.id := by
        intro r hr he
        exact hna (he ▸ List.mem_map_of_mem Item.id hr)
      rw [persistLoop_rowById_notMem t _ (k + 1) ok a.id hframe]
      by_cases h : ok k
      · simpa [h] using rowById_setPriority s a.id (Int.ofNat k)
      · simp [h]
    | succ j' =>
      have hj' : j' < t.length := by simpa using hj
      simp only [persistLoop, List.get]
      have harith : k + 1 + j' = k + (j' + 1) := by omega
      have hne : (t.get ⟨j', hj'⟩).id ≠ a.id := by
        intro he
        exact hna (he ▸ List.mem_map_of_mem Item.id (t.get_mem j' hj'))
      rw [ih _ (k + 1) hndt j' hj', harith]
      have hrw : rowById (if ok k then (updateEndpoint s a.id (priorityBody (Int.ofNat k))).1 else s)
          (t.get ⟨j', hj'⟩).id = rowById s (t.get ⟨j', hj'⟩).id := by
        by_cases h : ok k
        · simp only [h, if_true]
          exact rowById_updateEndpoint_ne s a.id _ _ hne
        · simp [h]
      rw [hrw]

theorem perm_get_cons_eraseIdx :
    ∀ (l : List Item) (i : Nat) (h : i < l.length), List.Perm l (l.get ⟨i, h⟩ :: l.eraseIdx i)
  | a :: t, 0, _ => by simp [List.eraseIdx]
  | a :: t, i + 1, h => by
    have h' : i < t.length := by simpa using h
    have step := (perm_get_cons_eraseIdx t i h').cons a
    have swap := List.Perm.swap (t.get ⟨i, h'⟩) a (t.eraseIdx i)
    simpa [List.eraseIdx_cons_succ] using step.trans swap

theorem arrayMove_perm (l : List Item) (i j : Nat) (hi : i < l.length) (hj : j < l.length) :
    List.Perm (arrayMove l i j) l := by
  unfold arrayMove
  rw [List.getElem?_eq_getElem hi]
  have hlen : (l.eraseIdx i).length = l.length - 1 := by simp [List.length_eraseIdx, hi]
  have hj' : j ≤ (l.eraseIdx i).length := by omega
  have h1 := List.perm_insertIdx (l.get ⟨i, hi⟩) (l.eraseIdx i) hj'
  have h2 := (perm_get_cons_eraseIdx l i hi).symm
  simpa [List.get_eq_getElem] using h1.trans h2

theorem handleDragEnd_perm (items : List Item) (a o : Nat)
    (ha : ∃ r ∈ items, r.id = a) (ho : ∃ r ∈ items, r.id = o) :
    List.Perm (handleDragEnd items a o) items := by
  unfold handleDragEnd
  by_cases h : a ≠ o
  · rw [if_pos h]
    apply arrayMove_perm
    · exact List.findIdx_lt_length_of_exists
        (by obtain ⟨r, hr, he⟩ := ha; exact ⟨r, hr, by simp [he]⟩)
    · exact List.findIdx_lt_length_of_exists
        (by obtain ⟨r, hr, he⟩ := ho; exact ⟨r, hr, by simp [he]⟩)
  · rw [if_neg h]

theorem mem_of_mem_filteredItems {r : Item} {items : List Item} {cat : String}
    (h : r ∈ filteredItems items cat) : r ∈ items := by
  unfold filteredItems at h
  split at h
  · exact h
  · exact (List.mem_filter.mp h).1

theorem reorder_persist_get (s : Store) (items : List Item) (a o : Nat) (ok : Nat → Bool)
    (hnd : (items.map Item.id).Nodup)
    (ha : ∃ r ∈ items, r.id = a) (ho : ∃ r ∈ items, r.id = o)
    (j : Nat) (hj : j < (handleDragEnd items a o).length) :
    rowById (reorderPersist s (handleDragEnd items a o) ok)
        ((handleDragEnd items a o).get ⟨j, hj⟩).id =
      if ok j then
        (rowById s ((handleDragEnd items a o).get ⟨j, hj⟩).id).map
          (fun r => { r with priority := Int.ofNat j })
      else rowById s ((handleDragEnd items a o).get ⟨j, hj⟩).id := by
  have hperm := handleDragEnd_perm items a o ha ho
  have hnd2 : ((handleDragEnd items a o).map Item.id).Nodup :=
    ((hperm.map Item.id).nodup_iff).mpr hnd
  have h := persistLoop_rowById_get (handleDragEnd items a o) s 0 ok hnd2 j hj
  simpa using h

/-! Helper lemmas about the URL scheme test. -/

theorem listIsInit_append (p q : List Char) : listIsInit p (p ++ q) = true := by
  induction p with
  | nil => rfl
  | cons a t ih => simp [listIsInit, ih]

theorem lowerStr_data (s : String) : (lowerStr s).data = s.data.map Char.toLower := rfl

theorem data_append_str (a b : String) : (a ++ b).data = a.data ++ b.data :=
  String.data_append a b

theorem testHttpScheme_https_append (u : String) :
    testHttpScheme ("https://" ++ u) = true := by
  unfold testHttpScheme
  apply Bool.or_eq_true_iff.mpr
  right
  rw [lowerStr_data, data_append_str, List.map_append]
  rw [show "https://".data.map Char.toLower = "https://".data from by decide]
  exact listIsInit_append "https://".data (u.data.map Char.toLower)

theorem normalizeUrl_of_trim_ne (s : String) (h : jsTrim s ≠ "") :
    testHttpScheme (normalizeUrl s) = true := by
  unfold normalizeUrl
  by_cases hs : testHttpScheme (jsTrim s) = false
  · rw [if_pos ⟨h, hs⟩]
    exact testHttpScheme_https_append (jsTrim s)
  · rw [if_neg (by intro hc; exact hs hc.2)]
    simpa using hs

theorem normalizeUrl_of_trim_empty (s : String) (h : jsTrim s = "") :
    normalizeUrl s = "" := by
  unfold normalizeUrl
  rw [if_neg (by intro hc; exact hc.1 h)]
  exact h

/-! Claim theorems. -/

/-- C5: for every store state, regardless of insert order and of the
priority values present (including duplicates), listAll returns all items
(a permutation of the table) sorted by priority ascending with ties broken
by created_at descending, the order expressed by itemOrd. -/
theorem listAll_sorted_priority_created (s : Store) :
    List.Perm (listAll s) s.rows ∧ List.Sorted itemOrd (listAll s) :=
  ⟨List.perm_insertionSort itemOrd s.rows, List.sorted_insertionSort itemOrd s.rows⟩

/-- C7: an update whose id matches no row raises no error, creates no row,
leaves the store unchanged, and still reports success. -/
theorem update_nonexistent_id_noop (s : Store) (i : Nat) (b : Body)
    (h : ∀ r ∈ s.rows, r.id ≠ i) :
    updateEndpoint s i b = (s, true) := by
  unfold updateEndpoint
  split
  · rfl
  · have hmap : s.rows.map (fun r => if r.id = i then applyUpdate b r else r) = s.rows := by
      rw [List.map_congr_left (g := id) (fun r hr => by simp [h r hr]), List.map_id]
    rw [hmap]

/-- Witness for C7 at a concrete store and absent id. -/
theorem update_nonexistent_id_noop_witness :
    updateEndpoint storeABC 99 (priorityBody 7) = (storeABC, true) :=
  update_nonexistent_id_noop storeABC 99 (priorityBody 7) (by decide)

/-- C6: the PUT handler returns success, leaves rows with other ids
untouched, applies applyUpdate to the row with the given id; applyUpdate
writes exactly the present fields (an absent field keeps the old value, a
present field — including the empty string — is written); and an empty
field set is a no-op whose subsequent listAll is unchanged. -/
theorem update_partial_fields_frame (s : Store) (i : Nat) (b : Body) :
    (updateEndpoint s i b).2 = true ∧
    (∀ x, x ≠ i → rowById (updateEndpoint s i b).1 x = rowById s x) ∧
    rowById (updateEndpoint s i b).1 i = (rowById s i).map (fun r => applyUpdate b r) ∧
    (∀ r, (applyUpdate b r).name = b.name.getD r.name ∧
      (applyUpdate b r).category = b.category.getD r.category ∧
      (applyUpdate b r).priority = b.priority.getD r.priority ∧
      (applyUpdate b r).price = b.price.elim r.price some ∧
      (applyUpdate b r).url = b.url.elim r.url some ∧
      (applyUpdate b r).image_key = b.image_key.elim r.image_key some ∧
      (applyUpdate b r).id = r.id ∧
      (applyUpdate b r).created_at = r.created_at) ∧
    (b.name = some "" → ∀ r, (applyUpdate b r).name = "") ∧
    (emptyBody b = true → updateEndpoint s i b = (s, true) ∧
      listAll (updateEndpoint s i b).1 = listAll s) := by
  refine ⟨?_, ?_, ?_, ?_, ?_, ?_⟩
  · unfold updateEndpoint; split <;> rfl
  · exact fun x hx => rowById_updateEndpoint_ne s i x b hx
  · exact rowById_updateEndpoint_self s i b
  · intro r
    refine ⟨rfl, rfl, rfl, ?_, ?_, ?_, rfl, rfl⟩
    · rcases hp : b.price with _ | v <;> simp [applyUpdate, hp]
    · rcases hp : b.url with _ | v <;> simp [applyUpdate, hp]
    · rcases hp : b.image_key with _ | v <;> simp [applyUpdate, hp]
  · intro hn r
    simp [applyUpdate, hn]
  · intro he
    have h1 : updateEndpoint s i b = (s, true) := by
      unfold updateEndpoint
      rw [if_pos he]
    exact ⟨h1, by rw [h1]⟩

/-- Update body writing an empty name and nothing else. -/
def bodyEmptyName : Body :=
  { name := some "", price := none, url := none, image_key := none,
    category := none, priority := none }

/-- Update body with every field absent. -/
def bodyNone : Body :=
  { name := none, price := none, url := none, image_key := none,
    category := none, priority := none }

/-- Witness for C6: an empty-string name is written, other rows are
untouched, and the empty body is a no-op, at concrete inputs. -/
theorem update_partial_fields_frame_witness :
    (applyUpdate bodyEmptyName itemA).name = "" ∧
    rowById (updateEndpoint storeABC 1 bodyEmptyName).1 2 = rowById storeABC 2 ∧
    updateEndpoint storeABC 1 bodyNone = (storeABC, true) := by
  refine ⟨?_, ?_, ?_⟩
  · exact (update_partial_fields_frame storeABC 1 bodyEmptyName).2.2.2.2.1 rfl itemA
  · exact (update_partial_fields_frame storeABC 1 bodyEmptyName).2.1 2 (by decide)
  · exact ((update_partial_fields_frame storeABC 1 bodyNone).2.2.2.2.2 rfl).1

/-- Evaluation of the insert handler when all four directly bound fields
are present: the new row and updated counter, shared by several claim
proofs. -/
theorem insertItem_of_defined (s : Store) (b : Body) (now : Int) (nm : String) (pr : Int)
    (u ik : String) (hn : b.name = some nm) (hp : b.price = some pr)
    (hu : b.url = some u) (hk : b.image_key = some ik) :
    insertItem s b now =
      Except.ok (s.nextId,
        { rows := s.rows ++
            [{ id := s.nextId, name := nm, price := some pr, url := some u,
               image_key := some ik, category := jsOrString b.category "uncategorized",
               priority := jsOrInt b.priority 0, created_at := now }],
          nextId := s.nextId + 1 }) := by
  simp [insertItem, hn, hp, hu, hk]

/-- Insert body that provides name but omits price. -/
def bodyNoPrice : Body :=
  { name := some "NoPrice", price := none, url := some "https://e.com", image_key := none,
    category := none, priority := none }

/-- Insert body with name and price present but image_key absent. -/
def bodyNoImage : Body :=
  { name := some "X", price := some 5, url := some "https://e.com", image_key := none,
    category := none, priority := none }

/-- Insert body with all four directly bound fields present. -/
def bodyFull : Body :=
  { name := some "Full", price := some 7, url := some "https://e.com",
    image_key := some "img", category := none, priority := none }

/-- C2 counterexample: a request with name and price both present does not
succeed — image_key is absent, D1 rejects the undefined bind with
D1_TYPE_ERROR before the statement runs, and no row is created (a bind
type error, not a ValidationError). -/
theorem insert_name_price_present_fails_cex :
    insertItem storeABC bodyNoImage 5 = Except.error DbError.d1TypeError := by
  rfl

/-- C2 (amended): the insert handler performs no application-level
validation. A request in which any of name, price, url or image_key is
absent fails because D1 rejects the undefined bind value with
D1_TYPE_ERROR — a server error, not a ValidationError — and no row is
created; every request with all four of these fields present succeeds,
appends exactly one row, and returns the newly assigned id. -/
theorem insert_no_validation (s : Store) (b : Body) (now : Int) :
    ((b.name = none ∨ b.price = none ∨ b.url = none ∨ b.image_key = none) →
      insertItem s b now = Except.error DbError.d1TypeError) ∧
    (∀ nm pr u ik, b.name = some nm → b.price = some pr → b.url = some u →
      b.image_key = some ik →
      ∃ s2 r, insertItem s b now = Except.ok (s.nextId, s2) ∧
        s2.rows = s.rows ++ [r] ∧ r.id = s.nextId ∧ r.name = nm ∧ r.price = some pr) := by
  constructor
  · intro h
    rcases h with h | h | h | h
    · simp [insertItem, h]
    · rcases hn : b.name with _ | nm
      · simp [insertItem, hn]
      · simp [insertItem, hn, h]
    · rcases hn : b.name with _ | nm
      · simp [insertItem, hn]
      · rcases hp : b.price with _ | pr
        · simp [insertItem, hn, hp]
        · simp [insertItem, hn, hp, h]
    · rcases hn : b.name with _ | nm
      · simp [insertItem, hn]
      · rcases hp : b.price with _ | pr
        · simp [insertItem, hn, hp]
        · rcases hu : b.url with _ | u
          · simp [insertItem, hn, hp, hu]
          · simp [insertItem, hn, hp, hu, h]
  · intro nm pr u ik hn hp hu hk
    exact ⟨_, _, insertItem_of_defined s b now nm pr u ik hn hp hu hk, rfl, rfl, rfl, rfl⟩

/-- Witness for C2 (amended) at a concrete body missing price and a
concrete fully-defined body. -/
theorem insert_no_validation_witness :
    insertItem storeABC bodyNoPrice 5 = Except.error DbError.d1TypeError ∧
    ∃ s2 r, insertItem storeABC bodyFull 6 = Except.ok (storeABC.nextId, s2) ∧
      s2.rows = storeABC.rows ++ [r] ∧ r.id = storeABC.nextId ∧ r.name = "Full" ∧
      r.price = some 7 :=
  ⟨(insert_no_validation storeABC bodyNoPrice 5).1 (Or.inr (Or.inl rfl)),
   (insert_no_validation storeABC bodyFull 6).2 "Full" 7 "https://e.com" "img" rfl rfl rfl rfl⟩

/-- C8: a successful insert followed by listAll (with a fresh id, as
AUTOINCREMENT guarantees) yields exactly one item with the returned id,
matching every provided field, with category defaulting to uncategorized
when absent or empty and priority defaulting to 0 when absent. -/
theorem insert_listAll_roundtrip (s : Store) (b : Body) (now : Int) (nid : Nat) (s2 : Store)
    (hfresh : ∀ r ∈ s.rows, r.id ≠ s.nextId)
    (hok : insertItem s b now = Except.ok (nid, s2)) :
    nid = s.nextId ∧
    (listAll s2).countP (fun r => r.id == nid) = 1 ∧
    ∃ r ∈ listAll s2,
      r.id = nid ∧ some r.name = b.name ∧ r.price = b.price ∧ r.url = b.url ∧
      r.image_key = b.image_key ∧ r.category = jsOrString b.category "uncategorized" ∧
      r.priority = jsOrInt b.priority 0 ∧ r.created_at = now ∧
      (b.category = none ∨ b.category = some "" → r.category = "uncategorized") ∧
      (b.priority = none → r.priority = 0) := by
  rcases hn : b.name with _ | nm
  · simp [insertItem, hn] at hok
  rcases hp : b.price with _ | pr
  · simp [insertItem, hn, hp] at hok
  rcases hu : b.url with _ | u
  · simp [insertItem, hn, hp, hu] at hok
  rcases hk : b.image_key with _ | ik
  · simp [insertItem, hn, hp, hu, hk] at hok
  rw [insertItem_of_defined s b now nm pr u ik hn hp hu hk] at hok
  have hpair : s.nextId = nid ∧
      ({ rows := s.rows ++
          [{ id := s.nextId, name := nm, price := some pr, url := some u,
             image_key := some ik, category := jsOrString b.category "uncategorized",
             priority := jsOrInt b.priority 0, created_at := now }],
         nextId := s.nextId + 1 } : Store) = s2 := by
    simpa using hok
  obtain ⟨hnid, hs2⟩ := hpair
  subst hs2
  subst hnid
  refine ⟨rfl, ?_, ?_⟩
  · rw [listAll]
    rw [(List.perm_insertionSort itemOrd _).countP_eq]
    rw [List.countP_append]
    have h0 : s.rows.countP (fun r => r.id == s.nextId) = 0 :=
      List.countP_eq_zero.mpr (fun r hr => by simp [hfresh r hr])
    simp [h0]
  · refine ⟨⟨s.nextId, nm, some pr, some u, some ik, jsOrString b.category "uncategorized",
      jsOrInt b.priority 0, now⟩, ?_,
      rfl, by simp [hn], by simp [hp], by simp [hu], by simp [hk], rfl, rfl, rfl, ?_, ?_⟩
    · exact (List.perm_insertionSort itemOrd _).mem_iff.mpr (by simp)
    · intro hc
      rcases hc with h | h <;> simp [jsOrString, h]
    · intro hp2
      simp [jsOrInt, hp2]

/-- Insert body for the round-trip witness: category and priority
omitted. -/
def bodyRound : Body :=
  { name := some "Lamp", price := some 49, url := some "https://lamp.example",
    image_key := some "lamp-img", category := none, priority := none }

/-- The store produced by inserting bodyRound into storeABC at time 99. -/
def storeRound : Store :=
  { rows := storeABC.rows ++
      [{ id := 4, name := "Lamp", price := some 49, url := some "https://lamp.example",
         image_key := some "lamp-img", category := "uncategorized", priority := 0,
         created_at := 99 }],
    nextId := 5 }

/-- Witness for C8 at a concrete insert into storeABC. -/
theorem insert_listAll_roundtrip_witness :
    (4 : Nat) = storeABC.nextId ∧
    (listAll storeRound).countP (fun r => r.id == 4) = 1 ∧
    ∃ r ∈ listAll storeRound,
      r.id = 4 ∧ some r.name = bodyRound.name ∧ r.price = bodyRound.price ∧
      r.url = bodyRound.url ∧ r.image_key = bodyRound.image_key ∧
      r.category = jsOrString bodyRound.category "uncategorized" ∧
      r.priority = jsOrInt bodyRound.priority 0 ∧ r.created_at = 99 ∧
      (bodyRound.category = none ∨ bodyRound.category = some "" → r.category = "uncategorized") ∧
      (bodyRound.priority = none → r.priority = 0) :=
  insert_listAll_roundtrip storeABC bodyRound 99 4 storeRound (by decide) (by rfl)

/-- C10: saving the edit form never changes priority — the payload built
when editing omits priority, so the stored priorities are all preserved —
while a newly created item is stored with priority equal to the current
length of the full item list rather than the default 0. -/
theorem edit_preserves_priority (s : Store) (i : Nat) (f : SubmitForm) (key : String)
    (len : Nat) (now : Int) :
    ((updateEndpoint s i (buildPayload true len f key)).1.rows.map Item.priority =
      s.rows.map Item.priority) ∧
    (buildPayload true len f key).priority = none ∧
    (buildPayload false len f key).priority = some (Int.ofNat len) ∧
    ∃ s2 r, insertItem s (buildPayload false len f key) now = Except.ok (s.nextId, s2) ∧
      s2.rows = s.rows ++ [r] ∧ r.priority = Int.ofNat len := by
  refine ⟨?_, rfl, rfl, ?_⟩
  · have hemp : emptyBody (buildPayload true len f key) = false := rfl
    unfold updateEndpoint
    rw [hemp]
    simp only [Bool.false_eq_true, if_false]
    rw [List.map_map]
    apply List.map_congr_left
    intro r hr
    by_cases h : r.id = i <;> simp [h, Function.comp, applyUpdate, buildPayload]
  · rw [insertItem_of_defined s (buildPayload false len f key) now f.name f.price
      (normalizeUrl f.url) key rfl rfl rfl rfl]
    refine ⟨_, _, rfl, rfl, ?_⟩
    show jsOrInt (some (Int.ofNat len)) 0 = Int.ofNat len
    simp only [jsOrInt]
    split <;> omega

/-- C9 counterexample: a whitespace-only url survives the required form
check, is trimmed to the empty string, and the falsy guard skips the
prefixing — the persisted url is the empty string, which carries no
scheme. -/
theorem normalizeUrl_whitespace_cex :
    (buildPayload false 0 { name := "x", price := 0, url := " ", category := "Toys" } "").url =
      some "" ∧ testHttpScheme "" = false := by
  exact ⟨rfl, rfl⟩

/-- C9 (amended): whenever the trimmed submitted url is non-empty, the
persisted url carries an explicit scheme — https is prepended unless an
http or https scheme is already present (case-insensitively) — while a
whitespace-only url is persisted unchanged as the empty string;
example.com becomes https://example.com and http://example.com is left
unchanged; the submit payload stores exactly the normalized url. -/
theorem normalizeUrl_scheme :
    (∀ s : String, jsTrim s ≠ "" → testHttpScheme (normalizeUrl s) = true) ∧
    (∀ s : String, jsTrim s = "" → normalizeUrl s = "") ∧
    normalizeUrl "example.com" = "https://example.com" ∧
    normalizeUrl "http://example.com" = "http://example.com" ∧
    (∀ (e : Bool) (l : Nat) (f : SubmitForm) (k : String),
      (buildPayload e l f k).url = some (normalizeUrl f.url)) := by
  refine ⟨normalizeUrl_of_trim_ne, normalizeUrl_of_trim_empty, ?_, ?_, fun e l f k => rfl⟩
  · decide
  · decide

/-- Witness for C9 (amended) at concrete urls. -/
theorem normalizeUrl_scheme_witness :
    testHttpScheme (normalizeUrl "example.com") = true ∧ normalizeUrl "   " = "" :=
  ⟨normalizeUrl_scheme.1 "example.com" (by decide), normalizeUrl_scheme.2.1 "   " (by decide)⟩

/-- C4: dragging A onto C in the three-item list produces [B, C, A] and
persists priorities B0 C1 A2; in general, for a drag of one item onto a
different one over the full rendered list (ids distinct, both present),
every item of the new sequence has its stored priority set to its
zero-based index in that sequence. -/
theorem drag_reorder_assigns_indices :
    handleDragEnd storeABC.rows 1 3 = [itemB, itemC, itemA] ∧
    (reorderPersist storeABC (handleDragEnd storeABC.rows 1 3) (fun _ => true)).rows =
      [{ itemA with priority := 2 }, { itemB with priority := 0 }, { itemC with priority := 1 }] ∧
    ∀ (s : Store) (items : List Item) (a o : Nat),
      (items.map Item.id).Nodup → a ≠ o →
      (∃ r ∈ items, r.id = a) → (∃ r ∈ items, r.id = o) →
      ∀ (j : Nat) (hj : j < (handleDragEnd items a o).length) (r0 : Item),
        rowById s ((handleDragEnd items a o).get ⟨j, hj⟩).id = some r0 →
        rowById (reorderPersist s (handleDragEnd items a o) (fun _ => true))
            ((handleDragEnd items a o).get ⟨j, hj⟩).id =
          some { r0 with priority := Int.ofNat j } := by
  refine ⟨by decide, by decide, ?_⟩
  intro s items a o hnd hao ha ho j hj r0 h0
  have h := reorder_persist_get s items a o (fun _ => true) hnd ha ho j hj
  rw [h0] at h
  simpa using h

/-- Witness for C4: the first item of the reordered sequence (B) ends with
priority 0. -/
theorem drag_reorder_assigns_indices_witness :
    rowById (reorderPersist storeABC (handleDragEnd storeABC.rows 1 3) (fun _ => true))
        ((handleDragEnd storeABC.rows 1 3).get ⟨0, by decide⟩).id =
      some { itemB with priority := 0 } := by
  have h := drag_reorder_assigns_indices.2.2 storeABC storeABC.rows 1 3 (by decide) (by decide)
    (by decide) (by decide) 0 (by decide) itemB (by decide)
  simpa using h

/-- C1 counterexample: with the Toys filter active over the mixed store,
dragging toy1 onto toy3 — both in the filtered view [toy1, toy3] — writes
priority 0 to tech2, an item outside the active category (its stored
priority changes from 1 to 0). -/
theorem reorder_filtered_writes_outside_category_cex :
    filteredItems storeMixed.rows "Toys" = [toy1, toy3] ∧
    tech2.category = "Tech" ∧
    (rowById storeMixed 2).map Item.priority = some 1 ∧
    (rowById (reorderPersist storeMixed (handleDragEnd storeMixed.rows 1 3) (fun _ => true))
        2).map Item.priority = some 0 := by
  decide

/-- C1 (amended): for a drag performed while a category filter is active
(both ids taken from the filtered view), the dragged and target positions
are computed within the FULL item sequence, one update is issued per item
of the full sequence, and every item of the full reordered sequence —
including items outside the active category — has its priority written to
its zero-based index in that full sequence. -/
theorem reorder_filtered_full_list_indices (s : Store) (items : List Item) (cat : String)
    (a o : Nat) (hnd : (items.map Item.id).Nodup) (_hao : a ≠ o)
    (ha : ∃ r ∈ filteredItems items cat, r.id = a)
    (ho : ∃ r ∈ filteredItems items cat, r.id = o) :
    (handleDragEnd items a o).length = items.length ∧
    ∀ (j : Nat) (hj : j < (handleDragEnd items a o).length) (r0 : Item),
      rowById s ((handleDragEnd items a o).get ⟨j, hj⟩).id = some r0 →
      rowById (reorderPersist s (handleDragEnd items a o) (fun _ => true))
          ((handleDragEnd items a o).get ⟨j, hj⟩).id =
        some { r0 with priority := Int.ofNat j } := by
  have ha' : ∃ r ∈ items, r.id = a := by
    obtain ⟨r, hr, he⟩ := ha
    exact ⟨r, mem_of_mem_filteredItems hr, he⟩
  have ho' : ∃ r ∈ items, r.id = o := by
    obtain ⟨r, hr, he⟩ := ho
    exact ⟨r, mem_of_mem_filteredItems hr, he⟩
  constructor
  · exact (handleDragEnd_perm items a o ha' ho').length_eq
  · intro j hj r0 h0
    have h := reorder_persist_get s items a o (fun _ => true) hnd ha' ho' j hj
    rw [h0] at h
    simpa using h

/-- Witness for C1 (amended) at the mixed fixture: the first item of the
full reordered sequence is tech2, outside the Toys filter, and its
priority is written to 0. -/
theorem reorder_filtered_full_list_indices_witness :
    rowById (reorderPersist storeMixed (handleDragEnd storeMixed.rows 1 3) (fun _ => true))
        ((handleDragEnd storeMixed.rows 1 3).get ⟨0, by decide⟩).id =
      some { tech2 with priority := 0 } := by
  have h := (reorder_filtered_full_list_indices storeMixed storeMixed.rows "Toys" 1 3
    (by decide) (by decide) (by decide) (by decide)).2 0 (by decide) tech2 (by decide)
  simpa using h

/-- C3 counterexample: reordering [A, B, C] by dragging A onto C gives
[B, C, A]; when only the second persistence request fails, the third
request still runs: the third item of the new sequence (A, id 1) has its
priority changed from 0 to 2, contradicting the claim that the third item
is unchanged, while the second item (C, id 3) keeps priority 2. -/
theorem reorder_partial_failure_third_updated_cex :
    handleDragEnd storeABC.rows 1 3 = [itemB, itemC, itemA] ∧
    (rowById storeABC 1).map Item.priority = some 0 ∧
    (rowById (reorderPersist storeABC (handleDragEnd storeABC.rows 1 3)
        (fun k => !(k == 1))) 3).map Item.priority = some 2 ∧
    (rowById (reorderPersist storeABC (handleDragEnd storeABC.rows 1 3)
        (fun k => !(k == 1))) 1).map Item.priority = some 2 := by
  decide

/-- C3 (amended): in a reorder over 3 items where the first request
succeeds and the second fails, the first item of the new sequence is
updated to priority 0 and the second is unchanged; the third is updated to
priority 2 exactly when its own request succeeds and is unchanged when it
also fails — no retry of the failed update and no rollback of the
first. -/
theorem reorder_partial_failure_independent (s : Store) (items : List Item) (a o : Nat)
    (ok : Nat → Bool) (hnd : (items.map Item.id).Nodup) (_hao : a ≠ o)
    (ha : ∃ r ∈ items, r.id = a) (ho : ∃ r ∈ items, r.id = o)
    (hok0 : ok 0 = true) (hok1 : ok 1 = false)
    (h3 : (handleDragEnd items a o).length = 3) :
    (rowById (reorderPersist s (handleDragEnd items a o) ok)
        ((handleDragEnd items a o).get ⟨0, by omega⟩).id =
      (rowById s ((handleDragEnd items a o).get ⟨0, by omega⟩).id).map
        (fun r => { r with priority := 0 })) ∧
    (rowById (reorderPersist s (handleDragEnd items a o) ok)
        ((handleDragEnd items a o).get ⟨1, by omega⟩).id =
      rowById s ((handleDragEnd items a o).get ⟨1, by omega⟩).id) ∧
    (rowById (reorderPersist s (handleDragEnd items a o) ok)
        ((handleDragEnd items a o).get ⟨2, by omega⟩).id =
      if ok 2 then
        (rowById s ((handleDragEnd items a o).get ⟨2, by omega⟩).id).map
          (fun r => { r with priority := 2 })
      else rowById s ((handleDragEnd items a o).get ⟨2, by omega⟩).id) := by
  refine ⟨?_, ?_, ?_⟩
  · have h := reorder_persist_get s items a o ok hnd ha ho 0 (by omega)
    rw [hok0] at h
    simpa using h
  · have h := reorder_persist_get s items a o ok hnd ha ho 1 (by omega)
    rw [hok1] at h
    simpa using h
  · have h := reorder_persist_get s items a o ok hnd ha ho 2 (by omega)
    simpa using h

/-- Witness for C3 (amended): the second item of the reordered [B, C, A]
sequence keeps its stored row when its request fails. -/
theorem reorder_partial_failure_independent_witness :
    rowById (reorderPersist storeABC (handleDragEnd storeABC.rows 1 3) (fun k => !(k == 1)))
        ((handleDragEnd storeABC.rows 1 3).get ⟨1, by decide⟩).id =
      rowById storeABC ((handleDragEnd storeABC.rows 1 3).get ⟨1, by decide⟩).id := by
  have h := (reorder_partial_failure_independent storeABC storeABC.rows 1 3 (fun k => !(k == 1))
    (by decide) (by decide) (by decide) (by decide) (by decide) (by decide) (by decide)).2.1
  simpa using h

end Wishlisht
